import Mathlib

/-!
Verification development for the buffernotebook incremental evaluator
(`rplugin/python3/buffernotebook.py`).

Embedded components:
* `removeUnparseableLines` — the tolerant line-blanking transformation
  `BufferNotebook._remove_unparseable_lines`, parametric in the parse oracle
  (the source consults `ast.parse`).
* `pyParses` / `lineOk` — a concrete, executable model of `ast.parse` success
  on a straight-line fragment of Python, sufficient for the spec's examples.
* `TimerState` / `onTimeout` / `runEv` — the coalescing `Timer` class.
* `Stmt` / `evaluateStatement` — `BufferNotebook._evaluate_statement` with the
  Python runtime primitives (`exec`, `eval`) abstracted as parameters.
-/

/-! ## Model of `ast.parse` success on a straight-line fragment of Python

The source decides parseability with `ast.parse("\n".join(lines))`.  We model
its success/failure on a fragment consisting of blank lines, bare atom
expression statements (a lone identifier or number parses: `bad` is a valid
Python expression statement), and simple `name = atom` assignments.  A line of
juxtaposed words such as `bad text` or `This line cannot be parsed` is a
syntax error, matching CPython.  In this fragment a program parses iff every
line parses on its own, and every non-blank line contributes exactly one
top-level statement.
-/

/-- Split a list of characters into space-separated words. -/
def wordsAux : List Char → List Char → List (List Char)
  | [], [] => []
  | [], acc => [acc.reverse]
  | c :: cs, acc =>
      if c = ' ' then
        if acc = [] then wordsAux cs [] else acc.reverse :: wordsAux cs []
      else wordsAux cs (c :: acc)

/-- The space-separated tokens of a line. -/
def lineTokens (s : String) : List (List Char) :=
  wordsAux s.data []

/-- A Python identifier in the fragment: a letter or underscore followed by
alphanumerics/underscores. -/
def isIdentChars : List Char → Bool
  | [] => false
  | c :: cs => (c.isAlpha || c = '_') && cs.all (fun d => d.isAlpha || d.isDigit || d = '_')

/-- A numeric literal in the fragment. -/
def isNumberChars (cs : List Char) : Bool :=
  !cs.isEmpty && cs.all Char.isDigit

/-- An atomic expression in the fragment: an identifier or a number. -/
def isAtomChars (cs : List Char) : Bool :=
  isIdentChars cs || isNumberChars cs

/-- Whether a single line parses on its own in the fragment: blank, a bare
atom expression statement, or a simple `name = atom` assignment. -/
def lineOk (s : String) : Bool :=
  match lineTokens s with
  | [] => true
  | [t] => isAtomChars t
  | [a, eq, b] => isIdentChars a && eq = ['='] && isAtomChars b
  | _ => false

/-- Models success of `ast.parse("\n".join(lines))` on the fragment: the
joined program parses iff every line parses on its own. -/
def pyParses (lines : List String) : Bool :=
  lines.all lineOk

/-- Number of top-level statements of the parse of the joined lines in the
fragment model: every non-blank line contributes exactly one statement. -/
def pyStmtCount (lines : List String) : Nat :=
  (lines.filter (fun l => !(lineTokens l).isEmpty)).length

/-! ## `BufferNotebook._remove_unparseable_lines`

The source (lines 206-236) searches for the longest prefix that parses
(`while end > 0: try ast.parse(lines[:end]) ... end -= 1`), keeps it verbatim
and recurses on the remaining suffix; if no non-empty prefix parses it blanks
the first line and recurses on the rest.  `searchEnd` mirrors the `while`
loop; `rulAux` carries a structural fuel (always instantiated with the length
of the line list, which the recursion never exceeds) so that the definition
is executable by kernel reduction.
-/

/-- Mirrors the `while end > 0` loop: the largest `e ≤ fuel` with
`p (lines.take e) = true`, else `0`. -/
def searchEnd (p : List String → Bool) (lines : List String) : Nat → Nat
  | 0 => 0
  | e + 1 => if p (lines.take (e + 1)) then e + 1 else searchEnd p lines e

/-- Fueled body of `_remove_unparseable_lines`; `fuel ≥ lines.length` in every
reachable call. -/
def rulAux (p : List String → Bool) : Nat → List String → List String
  | _, [] => []
  | 0, _ :: _ => []
  | fuel + 1, l :: ls =>
      let e := searchEnd p (l :: ls) (l :: ls).length
      if e = 0 then
        "" :: rulAux p fuel ls
      else
        (l :: ls).take e ++ rulAux p fuel ((l :: ls).drop e)

/-- `BufferNotebook._remove_unparseable_lines`, parametric in the parse oracle
`p` (the source consults `ast.parse` on the joined lines). -/
def removeUnparseableLines (p : List String → Bool) (lines : List String) : List String :=
  rulAux p lines.length lines

/-! ## The coalescing `Timer` (source lines 26-81)

`TimerState` holds the mutable fields `_timer` (modelled as a pending/absent
flag), `_is_executing` and `_execute_on_finish`.  `onTimeout` mirrors
`Timer._on_timeout` with the callback behaviour abstracted to whether each of
the (at most two) invocations inside one `_on_timeout` call raises; the
source has no `try/finally`, so a raise skips the remaining statements and
propagates.
-/

/-- Mutable fields of a `Timer` instance: `self._timer` (is a delay pending),
`self._is_executing`, `self._execute_on_finish`. -/
structure TimerState where
  timerPending : Bool
  isExecuting : Bool
  executeOnFinish : Bool

/-- `Timer._on_timeout`, with the callback abstracted to whether its first
invocation (`self.callback()` at the top of the else-branch) and its rerun
invocation (inside `if self._execute_on_finish`) raise.  Returns the final
field state and whether an exception propagated out of `_on_timeout`; a raise
skips every statement after the raising call (the source wraps neither call
in `try/finally`). -/
def onTimeout (raises1 raises2 : Bool) (s : TimerState) : TimerState × Bool :=
  let s1 : TimerState := { s with timerPending := false }
  if s1.isExecuting then
    ({ s1 with executeOnFinish := true }, false)
  else
    let s2 : TimerState := { s1 with isExecuting := true }
    if raises1 then (s2, true)
    else
      let s3 : TimerState := { s2 with isExecuting := false }
      if s3.executeOnFinish then
        let s4 : TimerState := { s3 with executeOnFinish := false }
        if raises2 then (s4, true) else (s4, false)
      else (s3, false)

mutual
/-- A tree of delay expiries: `timeout during duringRerun` is one firing of
`_on_timeout`; if it starts a callback body, the expiries in `during` arrive
while that body runs, and if a rerun body is started the expiries in
`duringRerun` arrive while the rerun body runs. -/
inductive TimerEv : Type where
  | timeout : TimerEvList → TimerEvList → TimerEv
/-- A list of delay expiries arriving in order. -/
inductive TimerEvList : Type where
  | nil : TimerEvList
  | cons : TimerEv → TimerEvList → TimerEvList
end

mutual
/-- Instrumented `Timer._on_timeout` for a non-raising callback: `depth` is
the number of callback bodies already running when the expiry is processed
(ghost instrumentation), and the returned list records, for each callback
body started, that enclosing depth at the moment it starts.  Expiries that
arrive while a body runs are processed at `depth + 1`. -/
def runEv (depth : Nat) (s : TimerState) : TimerEv → TimerState × List Nat
  | .timeout during duringRerun =>
      let s1 : TimerState := { s with timerPending := false }
      if s1.isExecuting then
        ({ s1 with executeOnFinish := true }, [])
      else
        let s2 : TimerState := { s1 with isExecuting := true }
        let p1 := runEvList (depth + 1) s2 during
        let s3 : TimerState := { p1.fst with isExecuting := false }
        if s3.executeOnFinish then
          let s4 : TimerState := { s3 with executeOnFinish := false }
          let p2 := runEvList (depth + 1) s4 duringRerun
          (p2.fst, (depth :: p1.snd) ++ (depth :: p2.snd))
        else
          (s3, depth :: p1.snd)
/-- Processes a list of delay expiries in order against the shared state. -/
def runEvList (depth : Nat) (s : TimerState) : TimerEvList → TimerState × List Nat
  | .nil => (s, [])
  | .cons e rest =>
      let p := runEv depth s e
      let q := runEvList depth p.fst rest
      (q.fst, p.snd ++ q.snd)
end

/-- Event trace exhibiting the rerun window: one expiry whose first callback
body sees a second expiry (setting the rerun flag) and whose rerun body sees
a third expiry. -/
def rerunRaceTrace : TimerEv :=
  TimerEv.timeout
    (TimerEvList.cons (TimerEv.timeout TimerEvList.nil TimerEvList.nil) TimerEvList.nil)
    (TimerEvList.cons (TimerEv.timeout TimerEvList.nil TimerEvList.nil) TimerEvList.nil)

/-! ## Claims about the coalescing `Timer` -/

/-- C3 (code evaluated at the failing input): from the idle state, a delay
expiry whose callback raises leaves `_is_executing` set to `True` after the
exception propagates out of `_on_timeout` — the source resets the flag only
on the straight-line path after `self.callback()` returns, with no
`try/finally`, so the claimed guarantee that the flag is `False` after
`_on_timeout` finishes does not hold.  Every later expiry then only sets
`_execute_on_finish` and the callback can never run again. -/
theorem c3_raising_callback_leaves_flag_set :
    onTimeout true false { timerPending := true, isExecuting := false, executeOnFinish := false }
      = ({ timerPending := false, isExecuting := true, executeOnFinish := false }, true) ∧
    (onTimeout true false
        { timerPending := true, isExecuting := false, executeOnFinish := false }).fst.isExecuting
      = true :=
  ⟨rfl, rfl⟩

/-- C4 (code evaluated at the failing input): `_is_executing` is set to
`False` before the rerun invocation of the callback, so an expiry arriving
during the rerun body does not defer — it starts a second callback body while
the rerun body is still running.  In the trace below the recorded enclosing
depths at the three callback-body starts are `[0, 0, 1]`: the third body
starts while one body (the rerun) is already running, violating the claimed
at-most-one-body-at-a-time guarantee. -/
theorem c4_rerun_window_starts_concurrent_body :
    (runEv 0 { timerPending := true, isExecuting := false, executeOnFinish := false }
      rerunRaceTrace).snd = [0, 0, 1] ∧
    ¬ (∀ d ∈ (runEv 0 { timerPending := true, isExecuting := false, executeOnFinish := false }
        rerunRaceTrace).snd, d = 0) := by
  refine ⟨rfl, ?_⟩
  intro h
  have h1 : (1 : Nat) = 0 := by
    apply h
    show 1 ∈ [0, 0, 1]
    simp
  exact Nat.one_ne_zero h1

/-! ## `BufferNotebook._evaluate_statement` (source lines 259-354)

The statement type records exactly the syntactic shape information the
evaluator inspects (`isinstance` tests on the statement and its targets, the
`names` list of an import); the payloads it never looks inside are carried as
their `ast.dump` serialisations.  The Python runtime primitives are abstract
parameters: `doExec` models `_do_exec(statement)` (an `exec` of the compiled
single-statement module against `self._globals`, returning the possibly
partially-updated globals together with the raised exception, if any) and
`evalExpr` models `eval(compile(ast.Expression(statement.value), ...))`.
-/

/-- A Python value as seen by the evaluator. -/
inductive PyVal : Type where
  | int : Int → PyVal
  | str : String → PyVal
  | tuple : List PyVal → PyVal
  | obj : String → PyVal

/-- The result stored for one statement: a regular value, a captured raised
exception (`result = exc`), or the `nothing_to_show` sentinel. -/
inductive Outcome : Type where
  | value : PyVal → Outcome
  | error : String → Outcome
  | nothingToShow : Outcome

/-- An element of an `ast.Tuple` assignment target: a `Name` or anything
else (carried as its dump). -/
inductive TargetElt : Type where
  | name : String → TargetElt
  | otherElt : String → TargetElt

/-- An assignment target: `ast.Name`, `ast.Tuple`, or any other shape
(attribute, subscript, starred, ..., carried as its dump). -/
inductive Target : Type where
  | name : String → Target
  | tuple : List TargetElt → Target
  | otherTarget : String → Target

/-- An `ast.alias` entry of an import statement: `name` and optional
`asname`. -/
structure ImportAlias where
  aliasName : String
  asname : Option String

/-- A top-level statement, by the syntactic kind the evaluator dispatches on.
`assign` carries a non-empty target list as head plus rest, mirroring the
`ast.Assign` parser invariant (`a = b = 1` has two targets `a` and `b`). -/
inductive Stmt : Type where
  | assign : Target → List Target → String → Stmt
  | augAssign : Target → String → String → Stmt
  | exprStmt : String → Stmt
  | imp : List ImportAlias → Stmt
  | impFrom : Option String → List ImportAlias → Nat → Stmt
  | otherStmt : String → Stmt

/-- Serialisation of a target element, for `ast.dump`. -/
def TargetElt.dumpElt : TargetElt → String
  | .name id => "Name(id=" ++ id ++ ", ctx=Store())"
  | .otherElt d => d

/-- Serialisation of a list of strings, for `ast.dump`. -/
def dumpJoin : List String → String
  | [] => ""
  | [d] => d
  | d :: rest => d ++ ", " ++ dumpJoin rest

/-- Serialisation of a target, for `ast.dump`. -/
def Target.dumpTarget : Target → String
  | .name id => "Name(id=" ++ id ++ ", ctx=Store())"
  | .tuple elts => "Tuple(elts=[" ++ dumpJoin (elts.map TargetElt.dumpElt) ++ "], ctx=Store())"
  | .otherTarget d => d

/-- Serialisation of an import alias, for `ast.dump`. -/
def ImportAlias.dumpAlias : ImportAlias → String
  | a =>
      "alias(name=" ++ a.aliasName ++
        (match a.asname with
         | some n => ", asname=" ++ n
         | none => "") ++ ")"

/-- Models `ast.dump(statement)`, the structural fingerprint used as the
cache key: a canonical serialisation of the statement's syntax. -/
def astDump : Stmt → String
  | .assign t0 rest v =>
      "Assign(targets=[" ++ dumpJoin ((t0 :: rest).map Target.dumpTarget) ++ "], value=" ++ v ++ ")"
  | .augAssign t op v =>
      "AugAssign(target=" ++ t.dumpTarget ++ ", op=" ++ op ++ ", value=" ++ v ++ ")"
  | .exprStmt v => "Expr(value=" ++ v ++ ")"
  | .imp names => "Import(names=[" ++ dumpJoin (names.map ImportAlias.dumpAlias) ++ "])"
  | .impFrom m names lvl =>
      "ImportFrom(" ++
        (match m with
         | some mod => "module=" ++ mod ++ ", "
         | none => "") ++
        "names=[" ++ dumpJoin (names.map ImportAlias.dumpAlias) ++ "], level=" ++
        toString lvl ++ ")"
  | .otherStmt d => d

/-- The execution environment `self._globals`, a mapping from identifier to
value. -/
abbrev Globals := List (String × PyVal)

/-- `self._globals[k]`: `some` the bound value, `none` models `KeyError`. -/
def lookupGlobal (g : Globals) (k : String) : Option PyVal :=
  match g.find? (fun kv => kv.fst = k) with
  | some kv => some kv.snd
  | none => none

/-- Abstract model of the Python runtime operations the evaluator invokes.
`doExec stmt g` models `self._do_exec(statement)` run against globals `g`: it
returns `(some exc, g2)` when the execution raised `exc` leaving the globals
in the partial state `g2`, and `(none, g2)` on success.  `evalExpr d g`
models `eval(compile(ast.Expression(statement.value), "<string>", "eval"),
self._globals)` for the expression whose dump is `d`. -/
structure PyRuntime where
  doExec : Stmt → Globals → Option String × Globals
  evalExpr : String → Globals → Except String PyVal × Globals

/-- The mutable attributes of `BufferNotebook` that `_evaluate_statement`
touches: `self._globals` and `self._cache`. -/
structure NBState where
  globals : Globals
  cache : List (String × Outcome)

/-- Left-to-right lookup of the tuple-target element names after execution
(`for elt in statement.targets[0].elts: result.append(self._globals[elt.id])`);
`none` models the caught `KeyError`. -/
def collectTupleResult (g : Globals) : List TargetElt → Option (List PyVal)
  | [] => some []
  | .name id :: rest =>
      match lookupGlobal g id with
      | some v => (collectTupleResult g rest).map (fun vs => v :: vs)
      | none => none
  | .otherElt _ :: _ => none

/-- Left-to-right lookup of the imported bindings after execution
(`[self._globals[name.asname or name.name] for name in statement.names]`);
`none` models the caught `KeyError`. -/
def collectImps (g : Globals) : List ImportAlias → Option (List PyVal)
  | [] => some []
  | a :: rest =>
      match lookupGlobal g (a.asname.getD a.aliasName) with
      | some v => (collectImps g rest).map (fun vs => v :: vs)
      | none => none

/-- The import branch after a successful `_do_exec`: one imported name shows
its value, several show the tuple of values, a missing binding shows
nothing. -/
def impOutcome (g : Globals) (names : List ImportAlias) : Outcome :=
  match collectImps g names with
  | none => Outcome.nothingToShow
  | some vs =>
      match vs with
      | [v] => Outcome.value v
      | _ => Outcome.value (PyVal.tuple vs)

/-- Whether a tuple-target element is an `ast.Name`
(`all(isinstance(elt, ast.Name) for elt in statement.targets[0].elts)`). -/
def TargetElt.isNameElt : TargetElt → Bool
  | .name _ => true
  | .otherElt _ => false

/-- The `if isinstance(statement, ...)` chain of `_evaluate_statement` (source
lines 271-351), computing the outcome and the updated globals.  In the
`ast.Assign` success path the source first runs
`if len(statement.targets) != 1: result = nothing_to_show`, but that
assignment is overwritten in every case by the following
`if/elif/else` chain on `statement.targets[0]` (the chain is not joined to
the guard with an `else`), so a multi-target chain whose first target is a
name or an all-name tuple still shows that target's value. -/
def execResult (rt : PyRuntime) (stmt : Stmt) (g0 : Globals) : Outcome × Globals :=
  match stmt with
  | .assign t0 _ _ =>
      match rt.doExec stmt g0 with
      | (some exc, g) => (Outcome.error exc, g)
      | (none, g) =>
          match t0 with
          | .tuple elts =>
              if elts.all TargetElt.isNameElt then
                match collectTupleResult g elts with
                | some vs => (Outcome.value (PyVal.tuple vs), g)
                | none => (Outcome.nothingToShow, g)
              else (Outcome.nothingToShow, g)
          | .name id =>
              match lookupGlobal g id with
              | some v => (Outcome.value v, g)
              | none => (Outcome.nothingToShow, g)
          | .otherTarget _ => (Outcome.nothingToShow, g)
  | .augAssign t _ _ =>
      match t with
      | .name id =>
          match rt.doExec stmt g0 with
          | (some exc, g) => (Outcome.error exc, g)
          | (none, g) =>
              match lookupGlobal g id with
              | some v => (Outcome.value v, g)
              | none => (Outcome.nothingToShow, g)
      | _ =>
          match rt.doExec stmt g0 with
          | (some exc, g) => (Outcome.error exc, g)
          | (none, g) => (Outcome.nothingToShow, g)
  | .exprStmt d =>
      match rt.evalExpr d g0 with
      | (Except.ok v, g) => (Outcome.value v, g)
      | (Except.error exc, g) => (Outcome.error exc, g)
  | .imp names =>
      match rt.doExec stmt g0 with
      | (some exc, g) => (Outcome.error exc, g)
      | (none, g) => (impOutcome g names, g)
  | .impFrom _ names _ =>
      match rt.doExec stmt g0 with
      | (some exc, g) => (Outcome.error exc, g)
      | (none, g) => (impOutcome g names, g)
  | .otherStmt _ =>
      match rt.doExec stmt g0 with
      | (some exc, g) => (Outcome.error exc, g)
      | (none, g) => (Outcome.nothingToShow, g)

/-- The tail of `_evaluate_statement` after the cache lookup: execute, then
`self._cache.append((key, result)); return result`. -/
def evalStmtCore (rt : PyRuntime) (stmt : Stmt) (key : String) (st : NBState) :
    Outcome × NBState :=
  let p := execResult rt stmt st.globals
  (p.fst, { globals := p.snd, cache := st.cache ++ [(key, p.fst)] })

/-- `BufferNotebook._evaluate_statement(index, statement)` acting on
`(self._globals, self._cache)`: compute the fingerprint, consult the cache at
`index` (a hit returns the cached outcome unchanged; a mismatch truncates
`self._cache = self._cache[:index]`; an `IndexError` skips truncation), then
execute and append. -/
def evaluateStatement (rt : PyRuntime) (index : Nat) (stmt : Stmt) (st : NBState) :
    Outcome × NBState :=
  let key := astDump stmt
  match st.cache.get? index with
  | some kv =>
      if key = kv.fst then (kv.snd, st)
      else evalStmtCore rt stmt key { globals := st.globals, cache := st.cache.take index }
  | none => evalStmtCore rt stmt key st

/-- The evaluation loop of `_evaluate_and_annotate`:
`for index, (..., statement) in enumerate(top_level_statements):
  result = self._evaluate_statement(index, statement)`, collecting the
per-statement outcomes. -/
def evaluatePassFrom (rt : PyRuntime) (index : Nat) (stmts : List Stmt) (st : NBState) :
    List Outcome × NBState :=
  match stmts with
  | [] => ([], st)
  | s :: rest =>
      let p := evaluateStatement rt index s st
      let q := evaluatePassFrom rt (index + 1) rest p.snd
      (p.fst :: q.fst, q.snd)

/-- The primitive execution step the evaluator runs for a statement:
`eval` of the expression for an `ast.Expr`, `_do_exec` for every other kind;
`(some exc, g2)` when that primitive raises `exc` leaving globals `g2`. -/
def runPrimitive (rt : PyRuntime) (stmt : Stmt) (g : Globals) : Option String × Globals :=
  match stmt with
  | .exprStmt d =>
      match rt.evalExpr d g with
      | (Except.ok _, g2) => (none, g2)
      | (Except.error e, g2) => (some e, g2)
  | _ => rt.doExec stmt g

/-! ## Lemmas on the prefix search and the blanking recursion -/

theorem searchEnd_le (p : List String → Bool) (lines : List String) :
    ∀ n, searchEnd p lines n ≤ n := by
  intro n
  induction n with
  | zero => simp [searchEnd]
  | succ k ih =>
      simp only [searchEnd]
      split
      · exact Nat.le_refl _
      · exact Nat.le_succ_of_le ih

theorem searchEnd_pos_parses (p : List String → Bool) (lines : List String) :
    ∀ n, searchEnd p lines n ≠ 0 → p (lines.take (searchEnd p lines n)) = true := by
  intro n
  induction n with
  | zero => intro h; simp [searchEnd] at h
  | succ k ih =>
      intro h
      simp only [searchEnd] at h ⊢
      split at h
      case isTrue hp => simp [hp]
      case isFalse hp =>
        rw [if_neg hp]
        exact ih h

theorem searchEnd_zero_of_all_fail (p : List String → Bool) (lines : List String) :
    ∀ n, (∀ k, 1 ≤ k → k ≤ n → p (lines.take k) = false) → searchEnd p lines n = 0 := by
  intro n
  induction n with
  | zero => intro _; rfl
  | succ k ih =>
      intro hall
      have hfail : p (lines.take (k + 1)) = false :=
        hall (k + 1) (Nat.succ_le_succ (Nat.zero_le k)) (Nat.le_refl _)
      simp only [searchEnd, hfail]
      exact ih fun j h1 h2 => hall j h1 (Nat.le_succ_of_le h2)

theorem rulAux_nil (p : List String → Bool) : ∀ fuel, rulAux p fuel [] = [] := by
  intro fuel; cases fuel <;> rfl

theorem rulAux_length (p : List String → Bool) :
    ∀ fuel lines, lines.length ≤ fuel → (rulAux p fuel lines).length = lines.length := by
  intro fuel
  induction fuel with
  | zero =>
      intro lines hlen
      have : lines = [] := List.eq_nil_of_length_eq_zero (Nat.le_zero.mp hlen)
      subst this; rfl
  | succ f ih =>
      intro lines hlen
      match lines with
      | [] => rfl
      | l :: ls =>
          simp only [rulAux, List.length_cons]
          simp only [List.length_cons] at hlen
          by_cases he : searchEnd p (l :: ls) (ls.length + 1) = 0
          · rw [if_pos he, List.length_cons]
            have : ls.length ≤ f := Nat.le_of_succ_le_succ hlen
            rw [ih ls this]
          · rw [if_neg he]
            have h1 : 1 ≤ searchEnd p (l :: ls) (ls.length + 1) := Nat.pos_of_ne_zero he
            have h2 : searchEnd p (l :: ls) (ls.length + 1) ≤ ls.length + 1 :=
              searchEnd_le p (l :: ls) _
            have hdrop : ((l :: ls).drop (searchEnd p (l :: ls) (ls.length + 1))).length ≤ f := by
              rw [List.length_drop]
              simp only [List.length_cons]
              omega
            rw [List.length_append, List.length_take, ih _ hdrop, List.length_drop]
            simp only [List.length_cons]
            omega

theorem forall₂_line_refl (l : List String) :
    List.Forall₂ (fun orig out => out = orig ∨ out = "") l l := by
  induction l with
  | nil => exact List.Forall₂.nil
  | cons a t ih => exact List.Forall₂.cons (Or.inl rfl) ih

theorem forall₂_line_append {a b c d : List String}
    (h1 : List.Forall₂ (fun orig out => out = orig ∨ out = "") a c)
    (h2 : List.Forall₂ (fun orig out => out = orig ∨ out = "") b d) :
    List.Forall₂ (fun orig out => out = orig ∨ out = "") (a ++ b) (c ++ d) := by
  induction h1 with
  | nil => exact h2
  | cons hr _ ih => exact List.Forall₂.cons hr ih

theorem rulAux_forall₂ (p : List String → Bool) :
    ∀ fuel lines, lines.length ≤ fuel →
      List.Forall₂ (fun orig out => out = orig ∨ out = "") lines (rulAux p fuel lines) := by
  intro fuel
  induction fuel with
  | zero =>
      intro lines hlen
      have : lines = [] := List.eq_nil_of_length_eq_zero (Nat.le_zero.mp hlen)
      subst this; exact List.Forall₂.nil
  | succ f ih =>
      intro lines hlen
      match lines with
      | [] => exact List.Forall₂.nil
      | l :: ls =>
          simp only [rulAux, List.length_cons]
          simp only [List.length_cons] at hlen
          by_cases he : searchEnd p (l :: ls) (ls.length + 1) = 0
          · rw [if_pos he]
            exact List.Forall₂.cons (Or.inr rfl) (ih ls (Nat.le_of_succ_le_succ hlen))
          · rw [if_neg he]
            have h1 : 1 ≤ searchEnd p (l :: ls) (ls.length + 1) := Nat.pos_of_ne_zero he
            have h2 : searchEnd p (l :: ls) (ls.length + 1) ≤ ls.length + 1 :=
              searchEnd_le p (l :: ls) _
            have hdrop : ((l :: ls).drop (searchEnd p (l :: ls) (ls.length + 1))).length ≤ f := by
              rw [List.length_drop]
              simp only [List.length_cons]
              omega
            conv_lhs => rw [← List.take_append_drop (searchEnd p (l :: ls) (ls.length + 1)) (l :: ls)]
            exact forall₂_line_append (forall₂_line_refl _) (ih _ hdrop)

theorem rulAux_id_of_parses (p : List String → Bool) :
    ∀ fuel lines, lines.length ≤ fuel → p lines = true → rulAux p fuel lines = lines := by
  intro fuel
  induction fuel with
  | zero =>
      intro lines hlen _
      have : lines = [] := List.eq_nil_of_length_eq_zero (Nat.le_zero.mp hlen)
      subst this; rfl
  | succ f _ =>
      intro lines hlen hp
      match lines with
      | [] => rfl
      | l :: ls =>
          have htake : (l :: ls).take ((l :: ls).length) = l :: ls := List.take_length _
          have hse : searchEnd p (l :: ls) ((l :: ls).length) = (l :: ls).length := by
            show searchEnd p (l :: ls) (ls.length + 1) = ls.length + 1
            have ht : (l :: ls).take (ls.length + 1) = l :: ls := htake
            simp [searchEnd, ht, hp]
          simp only [rulAux, hse]
          have hne : (l :: ls).length ≠ 0 := by simp
          rw [if_neg hne, htake, List.drop_length, rulAux_nil, List.append_nil]

theorem pyParses_append (a b : List String) :
    pyParses (a ++ b) = (pyParses a && pyParses b) := by
  simp [pyParses, List.all_append]

theorem rulAux_parses :
    ∀ fuel lines, lines.length ≤ fuel → pyParses (rulAux pyParses fuel lines) = true := by
  intro fuel
  induction fuel with
  | zero =>
      intro lines hlen
      have : lines = [] := List.eq_nil_of_length_eq_zero (Nat.le_zero.mp hlen)
      subst this; rfl
  | succ f ih =>
      intro lines hlen
      match lines with
      | [] => rfl
      | l :: ls =>
          simp only [rulAux, List.length_cons]
          simp only [List.length_cons] at hlen
          by_cases he : searchEnd pyParses (l :: ls) (ls.length + 1) = 0
          · rw [if_pos he]
            have hblank : lineOk "" = true := rfl
            simp only [pyParses, List.all_cons, hblank, Bool.true_and]
            exact ih ls (Nat.le_of_succ_le_succ hlen)
          · rw [if_neg he]
            have h2 : searchEnd pyParses (l :: ls) (ls.length + 1) ≤ ls.length + 1 :=
              searchEnd_le pyParses (l :: ls) _
            have hdrop : ((l :: ls).drop (searchEnd pyParses (l :: ls) (ls.length + 1))).length ≤ f := by
              rw [List.length_drop]
              simp only [List.length_cons]
              have h1 : 1 ≤ searchEnd pyParses (l :: ls) (ls.length + 1) := Nat.pos_of_ne_zero he
              omega
            rw [pyParses_append]
            have hpre : pyParses ((l :: ls).take (searchEnd pyParses (l :: ls) (ls.length + 1))) = true :=
              searchEnd_pos_parses pyParses (l :: ls) (ls.length + 1) he
            rw [hpre, ih _ hdrop]
            rfl

theorem pyParses_take_false_of_all_bad {l : String} {ls : List String}
    (hbad : ∀ x ∈ l :: ls, lineOk x = false) :
    ∀ k, 1 ≤ k → pyParses ((l :: ls).take k) = false := by
  intro k hk
  match k with
  | j + 1 =>
      have hl : lineOk l = false := hbad l (List.mem_cons_self l ls)
      simp [pyParses, List.all_cons, hl]

theorem rulAux_all_bad :
    ∀ fuel lines, lines.length ≤ fuel → (∀ x ∈ lines, lineOk x = false) →
      rulAux pyParses fuel lines = List.replicate lines.length "" := by
  intro fuel
  induction fuel with
  | zero =>
      intro lines hlen _
      have : lines = [] := List.eq_nil_of_length_eq_zero (Nat.le_zero.mp hlen)
      subst this; rfl
  | succ f ih =>
      intro lines hlen hbad
      match lines with
      | [] => rfl
      | l :: ls =>
          simp only [rulAux, List.length_cons]
          simp only [List.length_cons] at hlen
          have he : searchEnd pyParses (l :: ls) (ls.length + 1) = 0 :=
            searchEnd_zero_of_all_fail pyParses (l :: ls) (ls.length + 1)
              (fun k h1 _ => pyParses_take_false_of_all_bad hbad k h1)
          rw [if_pos he, List.replicate_succ]
          have hbadls : ∀ x ∈ ls, lineOk x = false :=
            fun x hx => hbad x (List.mem_cons_of_mem l hx)
          rw [ih ls (Nat.le_of_succ_le_succ hlen) hbadls]

theorem pyStmtCount_replicate_blank (n : Nat) :
    pyStmtCount (List.replicate n "") = 0 := by
  induction n with
  | zero => rfl
  | succ k ih =>
      have h0 : (!(lineTokens "").isEmpty) = false := rfl
      simp only [pyStmtCount, List.replicate_succ, List.filter_cons, h0, Bool.false_eq_true,
        if_false] at ih ⊢
      exact ih

/-! ## Claims about the tolerant parser -/

/-- C2 counterexample: in the third listed example the line `bad` is a bare
identifier, which is itself a valid Python expression statement, so the whole
input already parses and `_remove_unparseable_lines` returns it unchanged
instead of the listed `["", "a = 1", ""]`. -/
theorem c2_counterexample_bare_identifier :
    removeUnparseableLines pyParses ["bad", "a = 1", "bad"] = ["bad", "a = 1", "bad"] ∧
    ¬ removeUnparseableLines pyParses ["bad", "a = 1", "bad"] = ["", "a = 1", ""] :=
  ⟨by decide, by decide⟩

/-- C2 (amended): the tolerant line-blanking transformation maps
`["a = 1"]` to `["a = 1"]` and `["a = 1", "bad text", "b = 2"]` to
`["a = 1", "", "b = 2"]`; with a genuinely unparseable middle word sequence in
place of the bare identifier `bad`, `["bad text", "a = 1", "bad text"]` maps
to `["", "a = 1", ""]`, while `["bad", "a = 1", "bad"]` is returned unchanged
because every line of it already parses. -/
theorem c2_amended_examples :
    removeUnparseableLines pyParses ["a = 1"] = ["a = 1"] ∧
    removeUnparseableLines pyParses ["a = 1", "bad text", "b = 2"] = ["a = 1", "", "b = 2"] ∧
    removeUnparseableLines pyParses ["bad text", "a = 1", "bad text"] = ["", "a = 1", ""] ∧
    removeUnparseableLines pyParses ["bad", "a = 1", "bad"] = ["bad", "a = 1", "bad"] :=
  ⟨by decide, by decide, by decide, by decide⟩

/-- C5: for every input line list the blanked output of
`_remove_unparseable_lines` parses as a whole (in the fragment model of
`ast.parse`), and an input consisting entirely of unparseable lines yields an
all-blank output whose parse has zero top-level statements. -/
theorem c5_output_always_parses (lines : List String) :
    pyParses (removeUnparseableLines pyParses lines) = true ∧
    ((∀ x ∈ lines, lineOk x = false) →
      removeUnparseableLines pyParses lines = List.replicate lines.length "" ∧
      pyStmtCount (removeUnparseableLines pyParses lines) = 0) := by
  constructor
  · exact rulAux_parses lines.length lines (Nat.le_refl _)
  · intro hbad
    have hrep : removeUnparseableLines pyParses lines = List.replicate lines.length "" :=
      rulAux_all_bad lines.length lines (Nat.le_refl _) hbad
    refine ⟨hrep, ?_⟩
    rw [hrep]
    exact pyStmtCount_replicate_blank lines.length

/-- Witness for C5 at the concrete all-unparseable input `["bad text"]`. -/
theorem c5_output_always_parses_witness :
    pyParses (removeUnparseableLines pyParses ["bad text"]) = true ∧
    removeUnparseableLines pyParses ["bad text"] = List.replicate 1 "" ∧
    pyStmtCount (removeUnparseableLines pyParses ["bad text"]) = 0 :=
  ⟨(c5_output_always_parses ["bad text"]).1,
   ((c5_output_always_parses ["bad text"]).2 (by decide)).1,
   ((c5_output_always_parses ["bad text"]).2 (by decide)).2⟩

/-- C6: for every parse oracle and every input line list the output of
`_remove_unparseable_lines` has the same length as the input, every output
line is the original line at that position or the empty string, and an input
that already parses as a whole is returned unchanged. -/
theorem c6_output_shape (p : List String → Bool) (lines : List String) :
    (removeUnparseableLines p lines).length = lines.length ∧
    List.Forall₂ (fun orig out => out = orig ∨ out = "") lines (removeUnparseableLines p lines) ∧
    (p lines = true → removeUnparseableLines p lines = lines) :=
  ⟨rulAux_length p lines.length lines (Nat.le_refl _),
   rulAux_forall₂ p lines.length lines (Nat.le_refl _),
   fun hp => rulAux_id_of_parses p lines.length lines (Nat.le_refl _) hp⟩

/-- Witness for C6 at the concrete all-valid input `["a = 1"]`. -/
theorem c6_output_shape_witness :
    (removeUnparseableLines pyParses ["a = 1"]).length = 1 ∧
    List.Forall₂ (fun orig out => out = orig ∨ out = "")
      ["a = 1"] (removeUnparseableLines pyParses ["a = 1"]) ∧
    removeUnparseableLines pyParses ["a = 1"] = ["a = 1"] :=
  ⟨(c6_output_shape pyParses ["a = 1"]).1,
   (c6_output_shape pyParses ["a = 1"]).2.1,
   (c6_output_shape pyParses ["a = 1"]).2.2 (by decide)⟩

/-! ## Lemmas for the cache and execution paths -/

theorem get?_append_left_of_lt {α : Type} :
    ∀ (a b : List α) (j : Nat), j < a.length → (a ++ b).get? j = a.get? j := by
  intro a
  induction a with
  | nil => intro b j h; simp at h
  | cons x xs ih =>
      intro b j h
      match j with
      | 0 => rfl
      | j + 1 => exact ih b j (Nat.lt_of_succ_lt_succ h)

theorem get?_append_at_length {α : Type} :
    ∀ (a : List α) (x : α), (a ++ [x]).get? a.length = some x := by
  intro a x
  induction a with
  | nil => rfl
  | cons y ys ih => exact ih

theorem get?_take_of_lt {α : Type} :
    ∀ (l : List α) (i j : Nat), j < i → (l.take i).get? j = l.get? j := by
  intro l
  induction l with
  | nil => intro i j _; simp
  | cons x xs ih =>
      intro i j hj
      match i, j with
      | i + 1, 0 => rfl
      | i + 1, j + 1 => exact ih i j (Nat.lt_of_succ_lt_succ hj)

theorem lt_length_of_get?_some {α : Type} :
    ∀ (l : List α) (i : Nat) (y : α), l.get? i = some y → i < l.length := by
  intro l
  induction l with
  | nil => intro i y h; simp at h
  | cons x xs ih =>
      intro i y h
      match i with
      | 0 => exact Nat.succ_le_succ (Nat.zero_le _)
      | i + 1 => exact Nat.succ_lt_succ (ih i y h)

theorem length_take_of_lt {α : Type} :
    ∀ (l : List α) (i : Nat), i < l.length → (l.take i).length = i := by
  intro l i h
  rw [List.length_take]
  omega

theorem execResult_of_raise (rt : PyRuntime) (stmt : Stmt) (g g2 : Globals) (e : String)
    (h : runPrimitive rt stmt g = (some e, g2)) :
    execResult rt stmt g = (Outcome.error e, g2) := by
  cases stmt with
  | assign t0 rest v =>
      simp only [runPrimitive] at h
      simp only [execResult]
      rw [h]
  | augAssign t op v =>
      simp only [runPrimitive] at h
      cases t with
      | name id => simp only [execResult]; rw [h]
      | tuple elts => simp only [execResult]; rw [h]
      | otherTarget d => simp only [execResult]; rw [h]
  | exprStmt d =>
      simp only [runPrimitive] at h
      cases hev : rt.evalExpr d g with
      | mk r g3 =>
          rw [hev] at h
          cases r with
          | ok v => simp at h
          | error exc =>
              simp only [Prod.mk.injEq, Option.some.injEq] at h
              simp only [execResult, hev]
              rw [h.1, h.2]
  | imp names =>
      simp only [runPrimitive] at h
      simp only [execResult]
      rw [h]
  | impFrom m names lvl =>
      simp only [runPrimitive] at h
      simp only [execResult]
      rw [h]
  | otherStmt d =>
      simp only [runPrimitive] at h
      simp only [execResult]
      rw [h]

theorem evaluateStatement_of_mismatch (rt : PyRuntime) (index : Nat) (stmt : Stmt)
    (st : NBState) (ck : String) (cr : Outcome)
    (hget : st.cache.get? index = some (ck, cr)) (hne : astDump stmt ≠ ck) :
    evaluateStatement rt index stmt st
      = evalStmtCore rt stmt (astDump stmt)
          { globals := st.globals, cache := st.cache.take index } := by
  simp only [evaluateStatement, hget]
  rw [if_neg hne]

theorem evaluateStatement_of_none (rt : PyRuntime) (index : Nat) (stmt : Stmt)
    (st : NBState) (hget : st.cache.get? index = none) :
    evaluateStatement rt index stmt st = evalStmtCore rt stmt (astDump stmt) st := by
  simp only [evaluateStatement, hget]

theorem evaluatePassFrom_length (rt : PyRuntime) :
    ∀ (stmts : List Stmt) (index : Nat) (st : NBState),
      (evaluatePassFrom rt index stmts st).fst.length = stmts.length := by
  intro stmts
  induction stmts with
  | nil => intro index st; rfl
  | cons s rest ih =>
      intro index st
      simp only [evaluatePassFrom, List.length_cons]
      rw [ih]

/-! ## Claims about `_evaluate_statement` -/

/-- A sample concrete runtime whose statement execution succeeds binding
`a = 1` and `b = 1` (as an `exec` of `a = b = 1` would), used by closed
evaluations. -/
def rtChain : PyRuntime :=
  { doExec := fun _ g => (none, ("a", PyVal.int 1) :: ("b", PyVal.int 1) :: g)
    evalExpr := fun _ g => (Except.ok (PyVal.int 3), g) }

/-- The statement `a = b = 1`: an `ast.Assign` with the two targets
`Name(a)` and `Name(b)`. -/
def chainStmt : Stmt :=
  Stmt.assign (Target.name "a") [Target.name "b"] "Constant(value=1)"

/-- C1 (code evaluated at the failing input): evaluating the multi-target
chain `a = b = 1` with an empty cache does not produce "nothing to show" —
the source's `if len(statement.targets) != 1: result = nothing_to_show`
assignment is unconditionally overwritten by the following `if/elif/else`
chain on `statement.targets[0]`, which looks up the first target name `a`
and returns its post-assignment value `1`. -/
theorem c1_chain_assignment_shows_first_target :
    (evaluateStatement rtChain 0 chainStmt
        { globals := [("__name__", PyVal.str "__main__")], cache := [] }).fst
      = Outcome.value (PyVal.int 1) ∧
    Outcome.value (PyVal.int 1) ≠ Outcome.nothingToShow :=
  ⟨rfl, fun h => Outcome.noConfusion h⟩

/-- C7: if the cache holds at `index` an entry whose fingerprint equals the
statement's fingerprint `ast.dump(statement)`, then `_evaluate_statement`
returns the cached outcome and leaves the whole state — `self._globals` and
the entire `self._cache` — unchanged, for every runtime (so no execution
primitive influences the result). -/
theorem c7_cache_hit_returns_cached (rt : PyRuntime) (index : Nat) (stmt : Stmt)
    (st : NBState) (out : Outcome)
    (h : st.cache.get? index = some (astDump stmt, out)) :
    evaluateStatement rt index stmt st = (out, st) := by
  simp only [evaluateStatement, h]
  simp

/-- Witness for C7: a concrete cache hit at index 0. -/
theorem c7_cache_hit_returns_cached_witness :
    evaluateStatement rtChain 0 (Stmt.exprStmt "Constant(value=1)")
      { globals := [("__name__", PyVal.str "__main__")],
        cache := [(astDump (Stmt.exprStmt "Constant(value=1)"), Outcome.value (PyVal.int 1))] }
      = (Outcome.value (PyVal.int 1),
         { globals := [("__name__", PyVal.str "__main__")],
           cache := [(astDump (Stmt.exprStmt "Constant(value=1)"), Outcome.value (PyVal.int 1))] }) :=
  c7_cache_hit_returns_cached rtChain 0 (Stmt.exprStmt "Constant(value=1)") _
    (Outcome.value (PyVal.int 1)) rfl

/-- C8: when the cache entry at `index` exists but its fingerprint differs
from the new statement's, `_evaluate_statement` truncates the cache to the
first `index` entries (preserving them, in order), executes, and appends the
new `(fingerprint, outcome)` pair: afterwards the cache is exactly the old
first `index` entries followed by the new pair at position `index`, with
length `index + 1`. -/
theorem c8_mismatch_truncates_and_appends (rt : PyRuntime) (index : Nat) (stmt : Stmt)
    (st : NBState) (ck : String) (cr : Outcome)
    (hget : st.cache.get? index = some (ck, cr))
    (hne : astDump stmt ≠ ck) :
    (evaluateStatement rt index stmt st).snd.cache
        = st.cache.take index ++ [(astDump stmt, (evaluateStatement rt index stmt st).fst)] ∧
    (evaluateStatement rt index stmt st).snd.cache.length = index + 1 ∧
    (∀ j, j < index →
      (evaluateStatement rt index stmt st).snd.cache.get? j = st.cache.get? j) ∧
    (evaluateStatement rt index stmt st).snd.cache.get? index
        = some (astDump stmt, (evaluateStatement rt index stmt st).fst) := by
  have heval := evaluateStatement_of_mismatch rt index stmt st ck cr hget hne
  have hlt : index < st.cache.length := lt_length_of_get?_some st.cache index (ck, cr) hget
  have hlen : (st.cache.take index).length = index := length_take_of_lt st.cache index hlt
  rw [heval]
  simp only [evalStmtCore]
  refine ⟨trivial, ?_, ?_, ?_⟩
  · rw [List.length_append, hlen]
    rfl
  · intro j hj
    rw [get?_append_left_of_lt _ _ j (by rw [hlen]; exact hj)]
    exact get?_take_of_lt st.cache index j hj
  · have := get?_append_at_length (st.cache.take index)
      (astDump stmt, (execResult rt stmt st.globals).fst)
    rw [hlen] at this
    exact this

/-- Witness for C8: a concrete mismatch at index 0 against a one-entry
cache. -/
theorem c8_mismatch_truncates_and_appends_witness :
    (evaluateStatement rtChain 0 chainStmt
        { globals := [], cache := [("stale", Outcome.nothingToShow)] }).snd.cache
        = ([("stale", Outcome.nothingToShow)] : List (String × Outcome)).take 0
          ++ [(astDump chainStmt,
               (evaluateStatement rtChain 0 chainStmt
                 { globals := [], cache := [("stale", Outcome.nothingToShow)] }).fst)] ∧
    (evaluateStatement rtChain 0 chainStmt
        { globals := [], cache := [("stale", Outcome.nothingToShow)] }).snd.cache.length = 0 + 1 ∧
    (∀ j, j < 0 →
      (evaluateStatement rtChain 0 chainStmt
        { globals := [], cache := [("stale", Outcome.nothingToShow)] }).snd.cache.get? j
        = ([("stale", Outcome.nothingToShow)] : List (String × Outcome)).get? j) ∧
    (evaluateStatement rtChain 0 chainStmt
        { globals := [], cache := [("stale", Outcome.nothingToShow)] }).snd.cache.get? 0
        = some (astDump chainStmt,
            (evaluateStatement rtChain 0 chainStmt
              { globals := [], cache := [("stale", Outcome.nothingToShow)] }).fst) :=
  c8_mismatch_truncates_and_appends rtChain 0 chainStmt
    { globals := [], cache := [("stale", Outcome.nothingToShow)] }
    "stale" Outcome.nothingToShow rfl (by decide)

/-- C9: when the primitive execution of a statement raises (no cache hit at
its index), `_evaluate_statement` captures the exception as the outcome,
appends it to the cache, and leaves the globals in the partial state the
failed execution produced; the evaluation loop of `_evaluate_and_annotate`
never sees a propagated exception — it produces one outcome per statement of
the pass, whatever the runtime does. -/
theorem c9_execution_error_captured (rt : PyRuntime) (index : Nat) (stmt : Stmt)
    (st : NBState) (e : String) (g2 : Globals)
    (hmiss : ∀ ck cr, st.cache.get? index = some (ck, cr) → astDump stmt ≠ ck)
    (hraise : runPrimitive rt stmt st.globals = (some e, g2)) :
    (evaluateStatement rt index stmt st).fst = Outcome.error e ∧
    (evaluateStatement rt index stmt st).snd.globals = g2 ∧
    (evaluateStatement rt index stmt st).snd.cache
      = (if (st.cache.get? index).isSome then st.cache.take index else st.cache)
          ++ [(astDump stmt, Outcome.error e)] ∧
    (∀ (stmts : List Stmt) (i : Nat) (s : NBState),
      (evaluatePassFrom rt i stmts s).fst.length = stmts.length) := by
  have hexec : execResult rt stmt st.globals = (Outcome.error e, g2) :=
    execResult_of_raise rt stmt st.globals g2 e hraise
  have hmain :
      evaluateStatement rt index stmt st
        = (Outcome.error e,
           { globals := g2,
             cache := (if (st.cache.get? index).isSome then st.cache.take index else st.cache)
               ++ [(astDump stmt, Outcome.error e)] }) := by
    cases hget : st.cache.get? index with
    | none =>
        rw [evaluateStatement_of_none rt index stmt st hget]
        simp only [evalStmtCore, hexec, hget, Option.isSome_none, Bool.false_eq_true, if_false]
    | some kv =>
        have hne : astDump stmt ≠ kv.fst := by
          have := hmiss kv.fst kv.snd
          rw [← Prod.mk.eta (p := kv)] at hget
          exact this hget
        rw [evaluateStatement_of_mismatch rt index stmt st kv.fst kv.snd
          (by rw [← Prod.mk.eta (p := kv)] at hget; exact hget) hne]
        simp only [evalStmtCore, hexec, hget, Option.isSome_some, if_true]
  rw [hmain]
  exact ⟨rfl, rfl, rfl, fun stmts i s => evaluatePassFrom_length rt stmts i s⟩

/-- A sample concrete runtime whose statement execution raises a
division-by-zero error after binding `a`, used by the C9 witness. -/
def rtRaise : PyRuntime :=
  { doExec := fun _ g => (some "ZeroDivisionError(division by zero)", ("a", PyVal.int 7) :: g)
    evalExpr := fun _ g => (Except.error "ZeroDivisionError(division by zero)", g) }

/-- Witness for C9: a concrete raising execution with an empty cache. -/
theorem c9_execution_error_captured_witness :
    (evaluateStatement rtRaise 0 (Stmt.otherStmt "While(test=Constant(value=1))")
        { globals := [], cache := [] }).fst
      = Outcome.error "ZeroDivisionError(division by zero)" ∧
    (evaluateStatement rtRaise 0 (Stmt.otherStmt "While(test=Constant(value=1))")
        { globals := [], cache := [] }).snd.globals = [("a", PyVal.int 7)] ∧
    (evaluateStatement rtRaise 0 (Stmt.otherStmt "While(test=Constant(value=1))")
        { globals := [], cache := [] }).snd.cache
      = (if (([] : List (String × Outcome)).get? 0).isSome then
            ([] : List (String × Outcome)).take 0
          else ([] : List (String × Outcome)))
          ++ [(astDump (Stmt.otherStmt "While(test=Constant(value=1))"),
               Outcome.error "ZeroDivisionError(division by zero)")] ∧
    (∀ (stmts : List Stmt) (i : Nat) (s : NBState),
      (evaluatePassFrom rtRaise i stmts s).fst.length = stmts.length) :=
  c9_execution_error_captured rtRaise 0 (Stmt.otherStmt "While(test=Constant(value=1))")
    { globals := [], cache := [] } "ZeroDivisionError(division by zero)" [("a", PyVal.int 7)]
    (fun ck cr h => by simp at h) rfl

/-- C10: for a star import `from module import *` whose execution succeeds,
the outcome is "nothing to show" whenever the resulting environment has no
binding for the literal name `*` — the post-execution lookup evaluates
`self._globals[name.asname or name.name]` at the alias `alias(name="*",
asname=None)`, i.e. it looks up the key `*`, and the resulting `KeyError` is
caught and mapped to `nothing_to_show` (no cache hit at the index assumed). -/
theorem c10_star_import_nothing_to_show (rt : PyRuntime) (index : Nat)
    (moduleName : Option String) (lvl : Nat) (st : NBState) (g2 : Globals)
    (hmiss : ∀ ck cr, st.cache.get? index = some (ck, cr) →
      astDump (Stmt.impFrom moduleName [⟨"*", none⟩] lvl) ≠ ck)
    (hexec : rt.doExec (Stmt.impFrom moduleName [⟨"*", none⟩] lvl) st.globals = (none, g2))
    (hstar : lookupGlobal g2 "*" = none) :
    (evaluateStatement rt index (Stmt.impFrom moduleName [⟨"*", none⟩] lvl) st).fst
      = Outcome.nothingToShow := by
  have hcore : execResult rt (Stmt.impFrom moduleName [⟨"*", none⟩] lvl) st.globals
      = (Outcome.nothingToShow, g2) := by
    simp only [execResult, hexec]
    simp only [impOutcome, collectImps, Option.getD, hstar]
  cases hget : st.cache.get? index with
  | none =>
      rw [evaluateStatement_of_none rt index _ st hget]
      simp only [evalStmtCore, hcore]
  | some kv =>
      have hne : astDump (Stmt.impFrom moduleName [⟨"*", none⟩] lvl) ≠ kv.fst := by
        have := hmiss kv.fst kv.snd
        rw [← Prod.mk.eta (p := kv)] at hget
        exact this hget
      rw [evaluateStatement_of_mismatch rt index _ st kv.fst kv.snd
        (by rw [← Prod.mk.eta (p := kv)] at hget; exact hget) hne]
      simp only [evalStmtCore, hcore]

/-- A sample concrete runtime whose star-import execution succeeds and binds
ordinary names (never the literal `*`), used by the C10 witness. -/
def rtStar : PyRuntime :=
  { doExec := fun _ g => (none, ("pi", PyVal.int 3) :: g)
    evalExpr := fun _ g => (Except.ok (PyVal.int 3), g) }

/-- Witness for C10: a concrete successful `from math import *` with an
empty cache. -/
theorem c10_star_import_nothing_to_show_witness :
    (evaluateStatement rtStar 0 (Stmt.impFrom (some "math") [⟨"*", none⟩] 0)
        { globals := [("__name__", PyVal.str "__main__")], cache := [] }).fst
      = Outcome.nothingToShow :=
  c10_star_import_nothing_to_show rtStar 0 (some "math") 0
    { globals := [("__name__", PyVal.str "__main__")], cache := [] }
    (("pi", PyVal.int 3) :: [("__name__", PyVal.str "__main__")])
    (fun ck cr h => by simp at h) rfl rfl
